import Mathlib

/-
Verification development for the block-reaction engine
(src/services/BlockchainService.ts, src/services/BlockchainServiceHTTP.ts,
src/config/ConfigLoader.ts).

Shallow embedding conventions:
- JS numbers used as counters / block numbers / epoch-millisecond times are
  modelled as ℤ (they are integral in this program and can go negative).
- ethers bigint gas prices are modelled as ℚ (gasPriceGwei supports decimals
  and is converted to wei by parseUnits).
- All chain-client calls (getFeeData, getNonce, sendTransaction,
  getTransactionReceipt, getBlock, getBlockNumber) are oracles passed in as
  arguments; `none` (or a `threw` constructor) means the awaited call threw.
- JS Map is modelled as an association list with insertion-order set/delete.
-/

namespace BlockReaction

/-- GAS_CACHE_TTL = 30000 ms (BlockchainService.ts line 33). -/
def GAS_CACHE_TTL : ℤ := 30000

/-- NONCE_CACHE_TTL = 60000 ms (BlockchainService.ts line 37). -/
def NONCE_CACHE_TTL : ℤ := 60000

/-- BLOCK_CONFIRMATION_DELAY = 0 (BlockchainServiceHTTP.ts line 39). -/
def BLOCK_CONFIRMATION_DELAY : ℤ := 0

/-- CachedGasData (types, used at BlockchainService.ts lines 32, 258-263). -/
structure CachedGasData where
  gasPrice : ℚ
  maxFeePerGas : Option ℚ
  maxPriorityFeePerGas : Option ℚ
  lastUpdated : ℤ
deriving Repr, DecidableEq

/-- cachedNonce cell (BlockchainService.ts line 36). -/
structure CachedNonce where
  nonce : ℤ
  lastUpdated : ℤ
deriving Repr, DecidableEq

/-- Result of provider.getFeeData(): each field may be null. -/
structure FeeData where
  gasPrice : Option ℚ
  maxFeePerGas : Option ℚ
  maxPriorityFeePerGas : Option ℚ
deriving Repr, DecidableEq

/-- JS `x || d` on a bigint-or-null value: null and 0n are falsy. -/
def jsOrDefault (x : Option ℚ) (d : ℚ) : ℚ :=
  match x with
  | some v => if v = 0 then d else v
  | none => d

/-- JS `x || undefined` on a bigint-or-null value: null and 0n become undefined. -/
def jsOrUndefined (x : Option ℚ) : Option ℚ :=
  match x with
  | some v => if v = 0 then none else some v
  | none => none

/-- ethers.parseUnits(gwei-string, 'gwei'): gwei to wei. -/
def gweiToWei (g : ℚ) : ℚ := g * 1000000000

/-- Result of one getCachedGasData call: the returned record, the new cache
cell, and how many chain-client queries were performed (0 or 1). -/
structure GasGetOut where
  gasPrice : ℚ
  cached : Bool
  newCache : Option CachedGasData
  queries : ℕ
deriving Repr, DecidableEq

/-- Fresh-fetch path of getCachedGasData (BlockchainService.ts lines 250-265):
query getFeeData (`none` fetch = the await threw), fall back to the configured
default gas price when the reported gasPrice is null, store with timestamp
`now`. -/
def getFreshGasData (gasPriceGwei : ℚ) (now : ℤ) (fetch : Option FeeData) :
    Option GasGetOut :=
  match fetch with
  | none => none
  | some feeData =>
    let gasPrice := jsOrDefault feeData.gasPrice (gweiToWei gasPriceGwei)
    some { gasPrice := gasPrice, cached := false,
           newCache := some { gasPrice := gasPrice,
                              maxFeePerGas := jsOrUndefined feeData.maxFeePerGas,
                              maxPriorityFeePerGas :=
                                jsOrUndefined feeData.maxPriorityFeePerGas,
                              lastUpdated := now },
           queries := 1 }

/-- The validity test `this.cachedGasData && now - lastUpdated < TTL`
(BlockchainService.ts lines 243-246). -/
def gasCacheValid (cache : Option CachedGasData) (now : ℤ) : Bool :=
  match cache with
  | some c => decide (now - c.lastUpdated < GAS_CACHE_TTL)
  | none => false

/-- getCachedGasData (BlockchainService.ts lines 236-266): on a valid cell
return the stored value with cached=true and no query; otherwise fetch fresh
data. `none` result = the fetch threw. -/
def getCachedGasData (gasPriceGwei : ℚ) (cache : Option CachedGasData)
    (now : ℤ) (fetch : Option FeeData) : Option GasGetOut :=
  match cache with
  | some c =>
    if now - c.lastUpdated < GAS_CACHE_TTL then
      some { gasPrice := c.gasPrice, cached := true, newCache := some c,
             queries := 0 }
    else getFreshGasData gasPriceGwei now fetch
  | none => getFreshGasData gasPriceGwei now fetch

/-- Result of one getCachedNonce call. -/
structure NonceGetOut where
  nonce : ℤ
  cached : Bool
  newCache : Option CachedNonce
  queries : ℕ
deriving Repr, DecidableEq

/-- The validity test `this.cachedNonce !== null && now - lastUpdated < TTL`
(BlockchainService.ts lines 275-278). -/
def nonceCacheValid (cache : Option CachedNonce) (now : ℤ) : Bool :=
  match cache with
  | some c => decide (now - c.lastUpdated < NONCE_CACHE_TTL)
  | none => false

/-- getCachedNonce (BlockchainService.ts lines 268-290): on a valid cell
return the stored nonce with cached=true and no query; otherwise query
wallet.getNonce (`none` fetch = it threw) and store with timestamp `now`. -/
def getCachedNonce (cache : Option CachedNonce) (now : ℤ) (fetch : Option ℤ) :
    Option NonceGetOut :=
  match cache with
  | some c =>
    if now - c.lastUpdated < NONCE_CACHE_TTL then
      some { nonce := c.nonce, cached := true, newCache := some c,
             queries := 0 }
    else
      match fetch with
      | none => none
      | some n =>
        some { nonce := n, cached := false,
               newCache := some { nonce := n, lastUpdated := now },
               queries := 1 }
  | none =>
    match fetch with
    | none => none
    | some n =>
      some { nonce := n, cached := false,
             newCache := some { nonce := n, lastUpdated := now },
             queries := 1 }

/-- A sequence of getCachedGasData calls at the given times, with a fixed
fetch oracle; returns the final cache cell and the total number of
chain-client queries performed. -/
def runGasGets (gasPriceGwei : ℚ) (fetch : Option FeeData) :
    Option CachedGasData → List ℤ → Option CachedGasData × ℕ
  | cache, [] => (cache, 0)
  | cache, t :: ts =>
    match getCachedGasData gasPriceGwei cache t fetch with
    | none => runGasGets gasPriceGwei fetch cache ts
    | some out =>
      let r := runGasGets gasPriceGwei fetch out.newCache ts
      (r.1, out.queries + r.2)

/-- A sequence of getCachedNonce calls at the given times. -/
def runNonceGets (fetch : Option ℤ) :
    Option CachedNonce → List ℤ → Option CachedNonce × ℕ
  | cache, [] => (cache, 0)
  | cache, t :: ts =>
    match getCachedNonce cache t fetch with
    | none => runNonceGets fetch cache ts
    | some out =>
      let r := runNonceGets fetch out.newCache ts
      (r.1, out.queries + r.2)

/-- Value stored in the pendingTransactions map
(BlockchainService.ts lines 18-26). -/
structure PendingInfo where
  sentBlock : ℤ
  startTime : ℤ
  sentBlockTimestamp : String
  sentTimestamp : ℤ
deriving Repr, DecidableEq

/-- ConfirmationMetrics (types, built at BlockchainService.ts lines 347-359). -/
structure ConfirmationMetrics where
  transactionHash : String
  sentBlockNumber : ℤ
  confirmedBlockNumber : ℤ
  blocksToConfirm : ℤ
  confirmationTimeMs : ℤ
  gasUsed : ℤ
  effectiveGasPrice : ℚ
  sentBlockTimestamp : String
  confirmedBlockTimestamp : String
  sentTimestamp : ℤ
deriving Repr, DecidableEq

/-- The numeric part of BlockReactionConfig (types). The four string fields
(urls, key, recipient address) never influence the control flow modelled
here. -/
structure BlockReactionConfig where
  gasLimit : ℚ
  gasPriceGwei : ℚ
  initialBlocksToSkip : ℤ
  transactionCount : ℤ
deriving Repr, DecidableEq

/-- The mutable fields of BlockchainService (lines 17-37) that the claims are
about. The RPC endpoints, wallet and WebSocket handle are part of the
environment, not of this state. -/
@[ext]
structure EngineState where
  blockCount : ℤ
  sentTransactionCount : ℤ
  cachedGasData : Option CachedGasData
  cachedNonce : Option CachedNonce
  pendingTransactions : List (String × PendingInfo)
  confirmationMetrics : List ConfirmationMetrics
deriving Repr, DecidableEq

/-- Field initializers of BlockchainService (lines 17-37). -/
def initialEngineState : EngineState :=
  { blockCount := 0, sentTransactionCount := 0, cachedGasData := none,
    cachedNonce := none, pendingTransactions := [],
    confirmationMetrics := [] }

/-- JS Map.set: overwrite in place if the key is present, else append. -/
def mapSet (m : List (String × PendingInfo)) (k : String) (v : PendingInfo) :
    List (String × PendingInfo) :=
  if m.any (fun p => p.1 = k) then
    m.map (fun p => if p.1 = k then (k, v) else p)
  else m ++ [(k, v)]

/-- JS Map.delete. -/
def mapDelete (m : List (String × PendingInfo)) (k : String) :
    List (String × PendingInfo) :=
  m.filter (fun p => p.1 ≠ k)

/-- Environment of one dispatch attempt: the time, and the outcomes of the
three chain-client calls it may perform (`none` = the awaited call threw).
`sendResult` carries the transaction hash returned by wallet.sendTransaction. -/
structure DispatchEnv where
  now : ℤ
  feeData : Option FeeData
  nonceFetch : Option ℤ
  sendResult : Option String
deriving Repr, DecidableEq

/-- sendTransaction (BlockchainService.ts lines 170-234; identical in
BlockchainServiceHTTP.ts lines 183-246). The try body runs getCachedGasData,
getCachedNonce, then increments sentTransactionCount, awaits the send, on
success increments the cached nonce locally and records the pending entry.
Any throw jumps to the catch, which decrements sentTransactionCount; state
writes made before the throw persist. The transaction object itself
(recipient, value, gasLimit, gasPrice, nonce) is consumed by the wallet,
which is part of the environment. -/
def sendTransaction (cfg : BlockReactionConfig) (st : EngineState)
    (env : DispatchEnv) (blockNumber : ℤ) (blockTimestamp : String) :
    EngineState :=
  match getCachedGasData cfg.gasPriceGwei st.cachedGasData env.now env.feeData with
  | none => { st with sentTransactionCount := st.sentTransactionCount - 1 }
  | some _gasData =>
    let st1 := { st with cachedGasData := _gasData.newCache }
    match getCachedNonce st1.cachedNonce env.now env.nonceFetch with
    | none => { st1 with sentTransactionCount := st1.sentTransactionCount - 1 }
    | some _nonceData =>
      let st2 := { st1 with cachedNonce := _nonceData.newCache,
                            sentTransactionCount := st1.sentTransactionCount + 1 }
      match env.sendResult with
      | none => { st2 with sentTransactionCount := st2.sentTransactionCount - 1 }
      | some hash =>
        let bump := fun (c : CachedNonce) => { c with nonce := c.nonce + 1 }
        let st3 := { st2 with cachedNonce := Option.map bump st2.cachedNonce }
        let info : PendingInfo :=
          { sentBlock := blockNumber, startTime := env.now,
            sentBlockTimestamp := blockTimestamp, sentTimestamp := env.now }
        { st3 with
          pendingTransactions := mapSet st3.pendingTransactions hash info }

/-- What a handleNewBlock call did with the event. `limitReached` is the
branch that calls stop(). -/
inductive HandleOutcome
  | skipped
  | dispatched
  | limitReached
deriving Repr, DecidableEq

/-- handleNewBlock (BlockchainService.ts lines 120-168): count the block,
discard it while blockCount ≤ initialBlocksToSkip, dispatch while
sentTransactionCount < transactionCount, otherwise stop. The block number and
timestamp are already decoded from the notification. -/
def handleNewBlock (cfg : BlockReactionConfig) (st : EngineState)
    (env : DispatchEnv) (blockNumber : ℤ) (blockTimestamp : String) :
    EngineState × HandleOutcome :=
  let st1 := { st with blockCount := st.blockCount + 1 }
  if st1.blockCount ≤ cfg.initialBlocksToSkip then (st1, HandleOutcome.skipped)
  else if st1.sentTransactionCount < cfg.transactionCount then
    (sendTransaction cfg st1 env blockNumber blockTimestamp,
     HandleOutcome.dispatched)
  else (st1, HandleOutcome.limitReached)

/-- One tick of startGasDataRefresh (BlockchainService.ts lines 317-327):
call getCachedGasData then getCachedNonce inside a try whose catch only
logs. Returns the new state and the number of chain-client queries performed
(a fetch that threw still counts as one performed query). -/
def gasDataRefreshTick (cfg : BlockReactionConfig) (st : EngineState) (now : ℤ)
    (feeFetch : Option FeeData) (nonceFetch : Option ℤ) : EngineState × ℕ :=
  match getCachedGasData cfg.gasPriceGwei st.cachedGasData now feeFetch with
  | none => (st, 1)
  | some g =>
    let st1 := { st with cachedGasData := g.newCache }
    match getCachedNonce st1.cachedNonce now nonceFetch with
    | none => (st1, g.queries + 1)
    | some n => ({ st1 with cachedNonce := n.newCache }, g.queries + n.queries)

/-- Fields of an ethers TransactionReceipt that the code reads
(blockNumber, gasUsed, gasPrice). -/
structure Receipt where
  blockNumber : ℤ
  gasUsed : ℤ
  gasPrice : Option ℚ
deriving Repr, DecidableEq

/-- Outcome of provider.getTransactionReceipt(hash): the await threw, the
receipt is null (still pending), or a receipt is present. -/
inductive ReceiptResult
  | threw
  | absent
  | found (r : Receipt)
deriving Repr, DecidableEq

/-- Outcome of provider.getBlock(n) inside processConfirmedTransaction: the
await threw, or it returned a block (with its timestamp) or null. -/
inductive BlockLookupResult
  | threw
  | ret (timestamp : Option ℤ)
deriving Repr, DecidableEq

/-- The ConfirmationMetrics record built by processConfirmedTransaction
(BlockchainService.ts lines 329-361). `confirmedBlockTs` is the timestamp of
the confirming block, if provider.getBlock returned one. -/
def processConfirmedTransaction (hash : String) (receipt : Receipt)
    (info : PendingInfo) (now : ℤ) (confirmedBlockTs : Option ℤ) :
    ConfirmationMetrics :=
  { transactionHash := hash,
    sentBlockNumber := info.sentBlock,
    confirmedBlockNumber := receipt.blockNumber,
    blocksToConfirm := receipt.blockNumber - info.sentBlock,
    confirmationTimeMs := now - info.startTime,
    gasUsed := receipt.gasUsed,
    effectiveGasPrice := jsOrDefault receipt.gasPrice 0,
    sentBlockTimestamp := info.sentBlockTimestamp,
    confirmedBlockTimestamp :=
      match confirmedBlockTs with
      | some t => toString t
      | none => "",
    sentTimestamp := info.sentTimestamp }

/-- Body of the per-entry loop of startTransactionMonitoring
(BlockchainService.ts lines 296-313): look up the receipt; if the lookup
threw or returned null, leave the entry; if a receipt is present, fetch the
confirming block (a throw there is caught by the same try, leaving the entry
for the next tick), append the metrics and delete the entry. -/
def monitorEntryStep (now : ℤ) (lookup : String → ReceiptResult)
    (blockFetch : ℤ → BlockLookupResult) (s : EngineState)
    (e : String × PendingInfo) : EngineState :=
  match lookup e.1 with
  | ReceiptResult.threw => s
  | ReceiptResult.absent => s
  | ReceiptResult.found r =>
    match blockFetch r.blockNumber with
    | BlockLookupResult.threw => s
    | BlockLookupResult.ret ts =>
      { s with
        confirmationMetrics := s.confirmationMetrics ++
          [processConfirmedTransaction e.1 r e.2 now ts],
        pendingTransactions := mapDelete s.pendingTransactions e.1 }

/-- One tick of startTransactionMonitoring (BlockchainService.ts lines
292-315): return early when nothing is pending, otherwise iterate over the
entries present at tick start. -/
def transactionMonitoringTick (st : EngineState) (now : ℤ)
    (lookup : String → ReceiptResult) (blockFetch : ℤ → BlockLookupResult) :
    EngineState :=
  if st.pendingTransactions.isEmpty then st
  else st.pendingTransactions.foldl (monitorEntryStep now lookup blockFetch) st

/-- One event hitting the engine: a block notification (with the oracles of
the dispatch it may trigger), a confirmation-monitor tick, or a refresh tick. -/
inductive RunOp
  | block (env : DispatchEnv) (blockNumber : ℤ) (blockTimestamp : String)
  | monitor (now : ℤ) (lookup : String → ReceiptResult)
      (blockFetch : ℤ → BlockLookupResult)
  | refresh (now : ℤ) (feeFetch : Option FeeData) (nonceFetch : Option ℤ)

/-- Dispatch one event to the engine. -/
def runStep (cfg : BlockReactionConfig) (st : EngineState) : RunOp → EngineState
  | RunOp.block env bn ts => (handleNewBlock cfg st env bn ts).1
  | RunOp.monitor now lookup bf => transactionMonitoringTick st now lookup bf
  | RunOp.refresh now ff nf => (gasDataRefreshTick cfg st now ff nf).1

/-- A whole run: the engine processes a serialized sequence of events. -/
def run (cfg : BlockReactionConfig) (st : EngineState) (ops : List RunOp) :
    EngineState :=
  ops.foldl (runStep cfg) st

/-- Feed a list of block events to handleNewBlock, collecting the outcome of
each. -/
def runBlocksD (cfg : BlockReactionConfig) :
    EngineState → List (DispatchEnv × ℤ × String) →
    EngineState × List HandleOutcome
  | st, [] => (st, [])
  | st, (env, bn, ts) :: evs =>
    let r := handleNewBlock cfg st env bn ts
    let rest := runBlocksD cfg r.1 evs
    (rest.1, r.2 :: rest.2)

/-- Extra mutable fields of BlockchainServiceHTTP (lines 25-27): the polling
flag and the last processed block number, alongside the shared engine state. -/
structure HTTPState where
  engine : EngineState
  lastProcessedBlock : ℤ
  isPolling : Bool
deriving Repr, DecidableEq

/-- Outcome of one processBlock call's provider.getBlock(blockNumber):
the await threw, the block is null ("not found, skipping"), or the block was
fetched, carrying its timestamp and the oracles of the dispatch it may
trigger. -/
inductive PollBlockOutcome
  | threw
  | notFound
  | foundBlock (timestamp : String) (env : DispatchEnv)
deriving Repr, DecidableEq

/-- processBlock (BlockchainServiceHTTP.ts lines 112-181): fetch the block;
on null or a throw, log and return (the outer try catches everything, so
processBlock never throws to its caller). On a fetched block the body is the
same count/skip/limit logic as handleNewBlock. Returns (engine state, whether
the block was fetched, whether the limit-reached stop() ran). -/
def processBlock (cfg : BlockReactionConfig) (st : EngineState)
    (blockNumber : ℤ) (o : PollBlockOutcome) : EngineState × Bool × Bool :=
  match o with
  | PollBlockOutcome.threw => (st, false, false)
  | PollBlockOutcome.notFound => (st, false, false)
  | PollBlockOutcome.foundBlock ts env =>
    let r := handleNewBlock cfg st env blockNumber ts
    (r.1, true, r.2 = HandleOutcome.limitReached)

/-- The block numbers `lastProcessed + 1 .. lastProcessed + n` visited by the
for loop of pollBlocks. -/
def blockRangeAux (lo : ℤ) : ℕ → List ℤ
  | 0 => []
  | n + 1 => (lo + 1) :: blockRangeAux (lo + 1) n

/-- The for loop range of startBlockPolling (BlockchainServiceHTTP.ts lines
90-98): lastProcessed + 1 up to the fetched current height. -/
def blockRange (lo hi : ℤ) : List ℤ := blockRangeAux lo (hi - lo).toNat

/-- The body of the for loop of startBlockPolling: process each block in
sequence and set lastProcessedBlock to it afterwards, unconditionally.
stop() inside processBlock clears isPolling but does not break the loop.
Returns (engine state, polling flag, final baseline, blocks whose fetch
succeeded). -/
def processRange (cfg : BlockReactionConfig) (outs : ℤ → PollBlockOutcome) :
    EngineState → Bool → ℤ → List ℤ → EngineState × Bool × ℤ × List ℤ
  | st, polling, baseline, [] => (st, polling, baseline, [])
  | st, polling, _baseline, b :: bs =>
    let r := processBlock cfg st b (outs b)
    let polling' := if r.2.2 then false else polling
    let rest := processRange cfg outs r.1 polling' b bs
    (rest.1, rest.2.1, rest.2.2.1,
     if r.2.1 then b :: rest.2.2.2 else rest.2.2.2)

/-- One tick of startBlockPolling (BlockchainServiceHTTP.ts lines 77-110):
if polling is on, query the current height (`none` = the await threw, caught
and logged, nothing advances); when it is past the baseline plus
BLOCK_CONFIRMATION_DELAY, replay the gap. Returns the new state and the block
numbers whose fetch succeeded during this tick. -/
def pollBlocksTick (cfg : BlockReactionConfig) (st : HTTPState)
    (heightFetch : Option ℤ) (outs : ℤ → PollBlockOutcome) :
    HTTPState × List ℤ :=
  if st.isPolling = false then (st, [])
  else
    match heightFetch with
    | none => (st, [])
    | some currentBlock =>
      if st.lastProcessedBlock + BLOCK_CONFIRMATION_DELAY < currentBlock then
        let r := processRange cfg outs st.engine st.isPolling
          st.lastProcessedBlock
          (blockRange st.lastProcessedBlock
            (currentBlock - BLOCK_CONFIRMATION_DELAY))
        ({ engine := r.1, isPolling := r.2.1,
           lastProcessedBlock := r.2.2.1 }, r.2.2.2)
      else (st, [])

/-- An environment variable as seen by getEnvVarAsNumber: missing (or empty),
set but not parseable as a number (parseFloat gives NaN), or parseable to a
numeric value. -/
inductive EnvNum
  | missing
  | invalid
  | val (q : ℚ)
deriving DecidableEq

/-- getEnvVarAsNumber (ConfigLoader.ts lines 36-54): missing and unparsable
values both fall back to the default (the latter with a logged warning). -/
def getEnvVarAsNumber : EnvNum → ℚ → ℚ
  | EnvNum.missing, d => d
  | EnvNum.invalid, d => d
  | EnvNum.val q, _ => q

/-- The four numeric configuration values as loaded. -/
structure NumericConfig where
  gasLimit : ℚ
  gasPriceGwei : ℚ
  initialBlocksToSkip : ℚ
  transactionCount : ℚ
deriving Repr, DecidableEq

/-- The numeric checks of validateConfig (ConfigLoader.ts lines 93-117), in
source order; `some msg` is the thrown error. -/
def validateNumericConfig (c : NumericConfig) : Option String :=
  if c.gasLimit ≤ 0 then some "GAS_LIMIT must be greater than 0"
  else if c.gasPriceGwei ≤ 0 then some "GAS_PRICE_GWEI must be greater than 0"
  else if c.initialBlocksToSkip < 0 then
    some "INITIAL_BLOCKS_TO_SKIP must be non-negative"
  else if c.transactionCount ≤ 0 ∨ 10 < c.transactionCount then
    some "TRANSACTION_COUNT must be between 1 and 10"
  else none

/-- The numeric part of ConfigLoader.load (ConfigLoader.ts lines 14-25):
read the four variables with their built-in defaults, then validate. -/
def loadNumericConfig (gl gp sk tc : EnvNum) : NumericConfig × Option String :=
  let c : NumericConfig :=
    { gasLimit := getEnvVarAsNumber gl 21000,
      gasPriceGwei := getEnvVarAsNumber gp 20,
      initialBlocksToSkip := getEnvVarAsNumber sk 10,
      transactionCount := getEnvVarAsNumber tc 5 }
  (c, validateNumericConfig c)

/-- Hashes of the recorded confirmation metrics, in order. -/
def metricsHashes (st : EngineState) : List String :=
  st.confirmationMetrics.map (fun m => m.transactionHash)

/-- Keys of the pending-transaction map, in order. -/
def pendingHashes (st : EngineState) : List String :=
  st.pendingTransactions.map (fun p => p.1)

/-- Invariant behind confirmation idempotence: metrics hashes are pairwise
distinct, pending keys are pairwise distinct and disjoint from the metrics
hashes, and every recorded entry satisfies the blocksToConfirm equation with
a non-negative value. -/
def ConfirmationInv (st : EngineState) : Prop :=
  (metricsHashes st).Nodup ∧
  (pendingHashes st).Nodup ∧
  (∀ h ∈ pendingHashes st, h ∉ metricsHashes st) ∧
  (∀ m ∈ st.confirmationMetrics,
    m.blocksToConfirm = m.confirmedBlockNumber - m.sentBlockNumber ∧
    0 ≤ m.blocksToConfirm)

/-- The chain client behaves like an append-only ledger during a monitor
tick: a receipt found for a pending transaction sits at a block no earlier
than the block the transaction was sent at. -/
def goodMonitor (st : EngineState) (lookup : String → ReceiptResult) : Prop :=
  ∀ e ∈ st.pendingTransactions, ∀ r : Receipt,
    lookup e.1 = ReceiptResult.found r → e.2.sentBlock ≤ r.blockNumber

/-- Well-behaved environment for one event: a submission returns a hash not
seen among the already-confirmed transactions (transaction hashes are
unique), and receipts respect `goodMonitor`. -/
def opOK (st : EngineState) : RunOp → Prop
  | RunOp.block env _ _ =>
    ∀ h : String, env.sendResult = some h → h ∉ metricsHashes st
  | RunOp.monitor _ lookup _ => goodMonitor st lookup
  | RunOp.refresh _ _ _ => True

/-- A run of the engine in which every event's environment is well-behaved
in the sense of `opOK`. -/
inductive OkRun (cfg : BlockReactionConfig) :
    EngineState → List RunOp → EngineState → Prop
  | nil (st : EngineState) : OkRun cfg st [] st
  | cons (st : EngineState) (op : RunOp) (ops : List RunOp)
      (stf : EngineState) : opOK st op →
      OkRun cfg (runStep cfg st op) ops stf → OkRun cfg st (op :: ops) stf

/- Concrete inputs used by counterexample and witness theorems. -/

/-- A validated configuration: skip 0 blocks, budget 5. -/
def cfgA : BlockReactionConfig :=
  { gasLimit := 21000, gasPriceGwei := 20, initialBlocksToSkip := 0,
    transactionCount := 5 }

/-- A validated configuration: skip 10 blocks, budget 5. -/
def cfgB : BlockReactionConfig :=
  { gasLimit := 21000, gasPriceGwei := 20, initialBlocksToSkip := 10,
    transactionCount := 5 }

/-- Engine state with an empty gas cache, a warm nonce cache holding 5, and
no transaction sent yet. -/
def stParamFail : EngineState :=
  { blockCount := 0, sentTransactionCount := 0, cachedGasData := none,
    cachedNonce := some { nonce := 5, lastUpdated := 0 },
    pendingTransactions := [], confirmationMetrics := [] }

/-- Dispatch environment in which the fee-data query throws. -/
def envFeeThrow : DispatchEnv :=
  { now := 0, feeData := none, nonceFetch := some 5,
    sendResult := some "0xaa" }

/-- Engine state whose gas and nonce caches were both refreshed at time 0,
the nonce cell holding 5. -/
def stWarm : EngineState :=
  { blockCount := 10, sentTransactionCount := 0,
    cachedGasData := some { gasPrice := 20000000000, maxFeePerGas := none,
                            maxPriorityFeePerGas := none, lastUpdated := 0 },
    cachedNonce := some { nonce := 5, lastUpdated := 0 },
    pendingTransactions := [], confirmationMetrics := [] }

/-- Fee data reporting a 20 gwei gas price. -/
def fdTwenty : FeeData :=
  { gasPrice := some 20000000000, maxFeePerGas := none,
    maxPriorityFeePerGas := none }

/-- Successful dispatch at t = 1 (both caches are warm, no query needed). -/
def envSendOne : DispatchEnv :=
  { now := 1, feeData := none, nonceFetch := none, sendResult := some "0xb1" }

/-- Successful dispatch at t = 60001. -/
def envSendTwo : DispatchEnv :=
  { now := 60001, feeData := none, nonceFetch := none,
    sendResult := some "0xb2" }

/-- Dispatch at t = 1 whose submission throws after both parameters were
served from the warm caches. -/
def envSendFail : DispatchEnv :=
  { now := 1, feeData := none, nonceFetch := none, sendResult := none }

/-- The C2 run: refresh-to-5 at t = 0 (stWarm), a successful dispatch at
t = 1, a background refresh tick at t = 60000 whose chain queries report the
nonce still at 5, then a successful dispatch at t = 60001. -/
def c2Final : EngineState :=
  sendTransaction cfgA
    ((gasDataRefreshTick cfgA
      (sendTransaction cfgA stWarm envSendOne 100 "64")
      60000 (some fdTwenty) (some 5)).1)
    envSendTwo 101 "65"

/-- HTTP state at baseline 10 with polling on. -/
def httpStart : HTTPState :=
  { engine := initialEngineState, lastProcessedBlock := 10, isPolling := true }

/-- Per-block outcomes for the C3 tick: fetching block 11 throws, block 12
is fetched normally. -/
def outsFail11 : ℤ → PollBlockOutcome := fun b =>
  if b = 11 then PollBlockOutcome.threw
  else PollBlockOutcome.foundBlock "64"
    { now := 0, feeData := none, nonceFetch := none, sendResult := none }

/-- Engine state whose gas cell (value 20, t = 990) and nonce cell
(value 7, t = 990) are both fresh at t = 1000. -/
def stFresh : EngineState :=
  { blockCount := 0, sentTransactionCount := 0,
    cachedGasData := some { gasPrice := 20, maxFeePerGas := none,
                            maxPriorityFeePerGas := none, lastUpdated := 990 },
    cachedNonce := some { nonce := 7, lastUpdated := 990 },
    pendingTransactions := [], confirmationMetrics := [] }

/-- Fee data reporting a gas price of 30. -/
def fdThirty : FeeData :=
  { gasPrice := some 30, maxFeePerGas := none, maxPriorityFeePerGas := none }

/-- Engine state with a fresh gas cell (t = 990) and a stale nonce cell
(t = -100000), both observed at t = 1000. -/
def stMixed : EngineState :=
  { stFresh with cachedNonce := some { nonce := 7, lastUpdated := -100000 } }

/-- Successful dispatch at t = 0 fetching both parameters fresh. -/
def envColdSend : DispatchEnv :=
  { now := 0, feeData := some fdTwenty, nonceFetch := some 5,
    sendResult := some "0xc1" }

/-- Receipt lookup for the C8 witness run: the transaction sent from block
100 is found at block 102. -/
def lookupC8 : String → ReceiptResult := fun h =>
  if h = "0xc1" then
    ReceiptResult.found { blockNumber := 102, gasUsed := 21000,
                          gasPrice := some 20000000000 }
  else ReceiptResult.absent

/-- Block lookup for the C8 witness run. -/
def blockFetchC8 : ℤ → BlockLookupResult := fun _ =>
  BlockLookupResult.ret (some 999)

/-- The C8 witness run: one block event that dispatches, then one monitor
tick that confirms it. -/
def opsC8 : List RunOp :=
  [RunOp.block envColdSend 100 "64",
   RunOp.monitor 5000 lookupC8 blockFetchC8]

/-- Claim C1: against the claim, a dispatch attempt whose fee-rate query
throws does not leave transactionsSent at its pre-attempt value. Here the
budget check passes (count 0 < budget 5, block 1 > skip 0) and the fee-data
fetch throws; no pending entry is created and the nonce cache is untouched,
but sentTransactionCount drops from 0 to -1 because the catch decrements a
counter that was never incremented. -/
theorem paramFetchFailureBreaksCounter :
    (handleNewBlock cfgA stParamFail envFeeThrow 100 "64").2 =
      HandleOutcome.dispatched ∧
    (handleNewBlock cfgA stParamFail envFeeThrow 100 "64").1.pendingTransactions
      = [] ∧
    (handleNewBlock cfgA stParamFail envFeeThrow 100 "64").1.cachedNonce =
      some { nonce := 5, lastUpdated := 0 } ∧
    stParamFail.sentTransactionCount = 0 ∧
    (handleNewBlock cfgA stParamFail envFeeThrow 100 "64").1.sentTransactionCount
      = -1 := by
  decide

/-- Claim C2: against the claim, after a refresh to 5 at t = 0 and two
successful dispatches, the cached sequence value is 6, not 5 + 2 = 7: the
interleaved background refresh tick at t = 60000 (nonce TTL expired, since
local advances do not touch the timestamp) overwrote the locally advanced
value with the chain-reported 5. -/
theorem refreshOverwritesLocalAdvance :
    stWarm.cachedNonce = some { nonce := 5, lastUpdated := 0 } ∧
    c2Final.sentTransactionCount = 2 ∧
    Option.map CachedNonce.nonce c2Final.cachedNonce = some 6 ∧
    (6 : ℤ) ≠ 5 + 2 := by
  decide

/-- Claim C3 counterexample: against the claim, when fetching block 11 throws
during gap replay, the poll tick still advances the last-processed baseline
past it (to 12); block 11 is never delivered and will not be retried. -/
theorem pollSkipsFailedBlock :
    outsFail11 11 = PollBlockOutcome.threw ∧
    httpStart.lastProcessedBlock = 10 ∧
    (pollBlocksTick cfgB httpStart (some 12) outsFail11).1.lastProcessedBlock
      = 12 ∧
    (pollBlocksTick cfgB httpStart (some 12) outsFail11).2 = [12] := by
  decide

/-- Claim C4 counterexample: against the claim, a refresh tick at t = 1000
over cells last updated at t = 990 (both TTLs unexpired) performs zero
chain-client queries and leaves both values and timestamps unchanged, even
though the chain would have reported different values (30 and 9). -/
theorem refreshTickHonorsTTL :
    gasDataRefreshTick cfgB stFresh 1000 (some fdThirty) (some 9) =
      (stFresh, 0) ∧
    Option.map CachedGasData.lastUpdated stFresh.cachedGasData = some 990 ∧
    fdThirty.gasPrice = some 30 ∧
    Option.map CachedNonce.nonce stFresh.cachedNonce = some 7 := by
  decide

lemma getCachedGasData_of_valid (gp : ℚ) (c : CachedGasData) (now : ℤ)
    (fetch : Option FeeData) (h : now - c.lastUpdated < GAS_CACHE_TTL) :
    getCachedGasData gp (some c) now fetch =
      some { gasPrice := c.gasPrice, cached := true, newCache := some c,
             queries := 0 } := by
  simp [getCachedGasData, h]

lemma getCachedGasData_of_invalid (gp : ℚ) (cache : Option CachedGasData)
    (now : ℤ) (fd : FeeData) (h : gasCacheValid cache now = false) :
    getCachedGasData gp cache now (some fd) =
      some { gasPrice := jsOrDefault fd.gasPrice (gweiToWei gp),
             cached := false,
             newCache := some
               { gasPrice := jsOrDefault fd.gasPrice (gweiToWei gp),
                 maxFeePerGas := jsOrUndefined fd.maxFeePerGas,
                 maxPriorityFeePerGas := jsOrUndefined fd.maxPriorityFeePerGas,
                 lastUpdated := now },
             queries := 1 } := by
  cases cache with
  | none => simp [getCachedGasData, getFreshGasData]
  | some c =>
    simp only [gasCacheValid, decide_eq_false_iff_not] at h
    simp [getCachedGasData, h, getFreshGasData]

lemma getCachedNonce_of_valid (c : CachedNonce) (now : ℤ) (fetch : Option ℤ)
    (h : now - c.lastUpdated < NONCE_CACHE_TTL) :
    getCachedNonce (some c) now fetch =
      some { nonce := c.nonce, cached := true, newCache := some c,
             queries := 0 } := by
  simp [getCachedNonce, h]

lemma getCachedNonce_of_invalid (cache : Option CachedNonce) (now v : ℤ)
    (h : nonceCacheValid cache now = false) :
    getCachedNonce cache now (some v) =
      some { nonce := v, cached := false,
             newCache := some { nonce := v, lastUpdated := now },
             queries := 1 } := by
  cases cache with
  | none => simp [getCachedNonce]
  | some c =>
    simp only [nonceCacheValid, decide_eq_false_iff_not] at h
    simp [getCachedNonce, h]

lemma runGasGets_all_valid (gp : ℚ) (fetch : Option FeeData)
    (c : CachedGasData) (ts : List ℤ)
    (h : ∀ t ∈ ts, t - c.lastUpdated < GAS_CACHE_TTL) :
    runGasGets gp fetch (some c) ts = (some c, 0) := by
  induction ts with
  | nil => rfl
  | cons t ts ih =>
    have ht : t - c.lastUpdated < GAS_CACHE_TTL := h t (by simp)
    rw [runGasGets, getCachedGasData_of_valid gp c t fetch ht]
    simp [ih (fun u hu => h u (by simp [hu]))]

lemma runNonceGets_all_valid (fetch : Option ℤ) (c : CachedNonce)
    (ts : List ℤ) (h : ∀ t ∈ ts, t - c.lastUpdated < NONCE_CACHE_TTL) :
    runNonceGets fetch (some c) ts = (some c, 0) := by
  induction ts with
  | nil => rfl
  | cons t ts ih =>
    have ht : t - c.lastUpdated < NONCE_CACHE_TTL := h t (by simp)
    rw [runNonceGets, getCachedNonce_of_valid c t fetch ht]
    simp [ih (fun u hu => h u (by simp [hu]))]

/-- Claim C6: on a valid cell each getter returns the stored value with
wasCached = true and performs no chain-client query (so any sequence of calls
within the TTL performs none at all and leaves the cell untouched); the first
call on an expired or empty cell performs exactly one query, stores the
result with a fresh timestamp, and returns wasCached = false. -/
theorem cacheFreshness :
    (∀ (gp : ℚ) (c : CachedGasData) (now : ℤ) (fetch : Option FeeData),
      now - c.lastUpdated < GAS_CACHE_TTL →
      getCachedGasData gp (some c) now fetch =
        some { gasPrice := c.gasPrice, cached := true, newCache := some c,
               queries := 0 }) ∧
    (∀ (gp : ℚ) (cache : Option CachedGasData) (now : ℤ) (fd : FeeData),
      gasCacheValid cache now = false →
      getCachedGasData gp cache now (some fd) =
        some { gasPrice := jsOrDefault fd.gasPrice (gweiToWei gp),
               cached := false,
               newCache := some
                 { gasPrice := jsOrDefault fd.gasPrice (gweiToWei gp),
                   maxFeePerGas := jsOrUndefined fd.maxFeePerGas,
                   maxPriorityFeePerGas :=
                     jsOrUndefined fd.maxPriorityFeePerGas,
                   lastUpdated := now },
               queries := 1 }) ∧
    (∀ (c : CachedNonce) (now : ℤ) (fetch : Option ℤ),
      now - c.lastUpdated < NONCE_CACHE_TTL →
      getCachedNonce (some c) now fetch =
        some { nonce := c.nonce, cached := true, newCache := some c,
               queries := 0 }) ∧
    (∀ (cache : Option CachedNonce) (now v : ℤ),
      nonceCacheValid cache now = false →
      getCachedNonce cache now (some v) =
        some { nonce := v, cached := false,
               newCache := some { nonce := v, lastUpdated := now },
               queries := 1 }) ∧
    (∀ (gp : ℚ) (fetch : Option FeeData) (c : CachedGasData) (ts : List ℤ),
      (∀ t ∈ ts, t - c.lastUpdated < GAS_CACHE_TTL) →
      runGasGets gp fetch (some c) ts = (some c, 0)) ∧
    (∀ (fetch : Option ℤ) (c : CachedNonce) (ts : List ℤ),
      (∀ t ∈ ts, t - c.lastUpdated < NONCE_CACHE_TTL) →
      runNonceGets fetch (some c) ts = (some c, 0)) :=
  ⟨getCachedGasData_of_valid, getCachedGasData_of_invalid,
   getCachedNonce_of_valid, getCachedNonce_of_invalid,
   runGasGets_all_valid, runNonceGets_all_valid⟩

/-- Claim C6 witness: a cell refreshed at t = 0 holding nonce 7 serves
t = 100, 200, 300 from cache with zero queries; at t = 70000 a fresh query
stores 9 with timestamp 70000 and wasCached = false. -/
theorem cacheFreshnessWitness :
    runNonceGets (some 9) (some { nonce := 7, lastUpdated := 0 })
      [100, 200, 300] = (some { nonce := 7, lastUpdated := 0 }, 0) ∧
    getCachedNonce (some { nonce := 7, lastUpdated := 0 }) 70000 (some 9) =
      some { nonce := 9, cached := false,
             newCache := some { nonce := 9, lastUpdated := 70000 },
             queries := 1 } :=
  ⟨cacheFreshness.2.2.2.2.2 (some 9) { nonce := 7, lastUpdated := 0 }
      [100, 200, 300] (by decide),
   cacheFreshness.2.2.2.1 (some { nonce := 7, lastUpdated := 0 }) 70000 9
      (by decide)⟩

/-- Claim C10: when the fee-data query succeeds but reports a null gas price,
the refresh does not fail: it stores the configured default (gasPriceGwei
converted to wei) with a fresh timestamp, and a later get within the TTL
serves that default from cache without querying. -/
theorem nullGasPriceFallsBack (gp : ℚ) (cache : Option CachedGasData)
    (now t2 : ℤ) (fd : FeeData) (hv : gasCacheValid cache now = false)
    (hnull : fd.gasPrice = none) (ht : t2 - now < GAS_CACHE_TTL) :
    getCachedGasData gp cache now (some fd) =
      some { gasPrice := gweiToWei gp, cached := false,
             newCache := some
               { gasPrice := gweiToWei gp,
                 maxFeePerGas := jsOrUndefined fd.maxFeePerGas,
                 maxPriorityFeePerGas := jsOrUndefined fd.maxPriorityFeePerGas,
                 lastUpdated := now },
             queries := 1 } ∧
    (∀ fetch2 : Option FeeData,
      getCachedGasData gp
        (some { gasPrice := gweiToWei gp,
                maxFeePerGas := jsOrUndefined fd.maxFeePerGas,
                maxPriorityFeePerGas := jsOrUndefined fd.maxPriorityFeePerGas,
                lastUpdated := now }) t2 fetch2 =
      some { gasPrice := gweiToWei gp, cached := true,
             newCache := some
               { gasPrice := gweiToWei gp,
                 maxFeePerGas := jsOrUndefined fd.maxFeePerGas,
                 maxPriorityFeePerGas := jsOrUndefined fd.maxPriorityFeePerGas,
                 lastUpdated := now },
             queries := 0 }) := by
  constructor
  · rw [getCachedGasData_of_invalid gp cache now fd hv, hnull]
    simp [jsOrDefault]
  · intro fetch2
    exact getCachedGasData_of_valid gp _ t2 fetch2 ht

/-- Claim C10 witness: an empty cache at t = 0, fee data with a null gas
price and the 20 gwei default store 20000000000 wei; the get at t = 100 is a
cache hit. -/
theorem nullGasPriceFallsBackWitness :
    getCachedGasData 20 none 0
      (some { gasPrice := none, maxFeePerGas := none,
              maxPriorityFeePerGas := none }) =
      some { gasPrice := 20000000000, cached := false,
             newCache := some { gasPrice := 20000000000, maxFeePerGas := none,
                                maxPriorityFeePerGas := none,
                                lastUpdated := 0 },
             queries := 1 } ∧
    getCachedGasData 20
      (some { gasPrice := 20000000000, maxFeePerGas := none,
              maxPriorityFeePerGas := none, lastUpdated := 0 }) 100 none =
      some { gasPrice := 20000000000, cached := true,
             newCache := some { gasPrice := 20000000000, maxFeePerGas := none,
                                maxPriorityFeePerGas := none,
                                lastUpdated := 0 },
             queries := 0 } := by
  have h := nullGasPriceFallsBack 20 none 0 100
    { gasPrice := none, maxFeePerGas := none, maxPriorityFeePerGas := none }
    (by decide) rfl (by decide)
  constructor
  · have h1 := h.1
    norm_num [gweiToWei, jsOrUndefined] at h1 ⊢
    exact h1
  · have h2 := h.2 none
    norm_num [gweiToWei, jsOrUndefined] at h2 ⊢
    exact h2

/-- Claim C4 amended: a refresh-scheduler tick calls the TTL-checked get path
for both cells. A cell that is still valid is left unchanged (value and
timestamp) with no chain-client query; only an expired or empty cell is
re-queried and overwritten with a fresh timestamp. The tick performs one
query per expired cell. -/
theorem refreshTickTTLBehavior (cfg : BlockReactionConfig) (st : EngineState)
    (now : ℤ) (fd : FeeData) (nv : ℤ) :
    (gasCacheValid st.cachedGasData now = true →
      (gasDataRefreshTick cfg st now (some fd) (some nv)).1.cachedGasData =
        st.cachedGasData) ∧
    (gasCacheValid st.cachedGasData now = false →
      (gasDataRefreshTick cfg st now (some fd) (some nv)).1.cachedGasData =
        some { gasPrice := jsOrDefault fd.gasPrice (gweiToWei cfg.gasPriceGwei),
               maxFeePerGas := jsOrUndefined fd.maxFeePerGas,
               maxPriorityFeePerGas := jsOrUndefined fd.maxPriorityFeePerGas,
               lastUpdated := now }) ∧
    (nonceCacheValid st.cachedNonce now = true →
      (gasDataRefreshTick cfg st now (some fd) (some nv)).1.cachedNonce =
        st.cachedNonce) ∧
    (nonceCacheValid st.cachedNonce now = false →
      (gasDataRefreshTick cfg st now (some fd) (some nv)).1.cachedNonce =
        some { nonce := nv, lastUpdated := now }) ∧
    (gasDataRefreshTick cfg st now (some fd) (some nv)).2 =
      (if gasCacheValid st.cachedGasData now then 0 else 1) +
      (if nonceCacheValid st.cachedNonce now then 0 else 1) := by
  rcases hg : st.cachedGasData with _ | c <;>
  rcases hn : st.cachedNonce with _ | d <;>
  simp [gasDataRefreshTick, getCachedGasData, getCachedNonce, gasCacheValid,
        nonceCacheValid, getFreshGasData, hg, hn] <;>
  split_ifs <;> simp_all

/-- Claim C4 amended witness: at t = 1000 over a fresh gas cell (t = 990) and
a stale nonce cell (t = -100000), the tick keeps the gas cell and overwrites
only the nonce cell. -/
theorem refreshTickTTLBehaviorWitness :
    (gasDataRefreshTick cfgB stMixed 1000 (some fdThirty) (some 9)).1.cachedGasData
      = stMixed.cachedGasData ∧
    (gasDataRefreshTick cfgB stMixed 1000 (some fdThirty) (some 9)).1.cachedNonce
      = some { nonce := 9, lastUpdated := 1000 } :=
  ⟨(refreshTickTTLBehavior cfgB stMixed 1000 fdThirty 9).1 (by decide),
   (refreshTickTTLBehavior cfgB stMixed 1000 fdThirty 9).2.2.2.1 (by decide)⟩

lemma processRange_baseline (cfg : BlockReactionConfig)
    (outs : ℤ → PollBlockOutcome) :
    ∀ (l : List ℤ) (st : EngineState) (polling : Bool) (base : ℤ),
    (processRange cfg outs st polling base l).2.2.1 = l.getLastD base := by
  intro l
  induction l with
  | nil => intro st polling base; rfl
  | cons b bs ih =>
    intro st polling base
    rw [processRange, List.getLastD_cons]
    exact ih _ _ b

lemma processRange_delivered (cfg : BlockReactionConfig)
    (outs : ℤ → PollBlockOutcome) :
    ∀ (l : List ℤ) (st : EngineState) (polling : Bool) (base b : ℤ),
    b ∈ (processRange cfg outs st polling base l).2.2.2 →
    ∃ ts env, outs b = PollBlockOutcome.foundBlock ts env := by
  intro l
  induction l with
  | nil => intro st polling base b hb; simp [processRange] at hb
  | cons a bs ih =>
    intro st polling base b hb
    rw [processRange] at hb
    rcases ho : outs a with _ | _ | ⟨ts, env⟩ <;>
      simp only [ho, processBlock] at hb <;>
      simp only [Bool.false_eq_true, if_false, if_true, List.mem_cons] at hb
    · exact ih _ _ a b hb
    · exact ih _ _ a b hb
    · rcases hb with rfl | hb
      · exact ⟨ts, env, ho⟩
      · exact ih _ _ a b hb

lemma blockRangeAux_getLastD :
    ∀ (n : ℕ), n ≠ 0 → ∀ (lo d : ℤ),
    (blockRangeAux lo n).getLastD d = lo + n := by
  intro n
  induction n with
  | zero => intro h; exact absurd rfl h
  | succ m ih =>
    intro _ lo d
    rw [blockRangeAux, List.getLastD_cons]
    cases m with
    | zero => simp [blockRangeAux]
    | succ k =>
      rw [ih (Nat.succ_ne_zero k) (lo + 1) (lo + 1)]
      push_cast
      ring

lemma blockRange_getLastD (lo hi d : ℤ) (h : lo < hi) :
    (blockRange lo hi).getLastD d = hi := by
  rw [blockRange, blockRangeAux_getLastD]
  · rw [Int.toNat_of_nonneg (by omega)]; omega
  · omega

/-- Claim C3 amended: when the height query succeeds and reports new blocks,
the poll tick advances the last-processed baseline all the way to the fetched
height regardless of per-block outcomes: a per-block fetch failure is logged
and the block is skipped permanently (it is not delivered and not retried on
a later tick), because processBlock catches its own errors and the loop
advances the baseline unconditionally. -/
theorem pollBaselineAdvancesUnconditionally (cfg : BlockReactionConfig)
    (st : HTTPState) (h : ℤ) (outs : ℤ → PollBlockOutcome)
    (hp : st.isPolling = true) (hlt : st.lastProcessedBlock < h) :
    (pollBlocksTick cfg st (some h) outs).1.lastProcessedBlock = h ∧
    ∀ b : ℤ, outs b = PollBlockOutcome.threw →
      b ∉ (pollBlocksTick cfg st (some h) outs).2 := by
  have hcond : st.lastProcessedBlock + BLOCK_CONFIRMATION_DELAY < h := by
    simp only [BLOCK_CONFIRMATION_DELAY, add_zero]; exact hlt
  constructor
  · simp only [pollBlocksTick, hp, hcond, if_pos, Bool.true_eq_false,
      if_false, if_true]
    rw [processRange_baseline]
    simp only [BLOCK_CONFIRMATION_DELAY, sub_zero]
    exact blockRange_getLastD _ _ _ hlt
  · intro b hb hmem
    simp only [pollBlocksTick, hp, hcond, if_pos, Bool.true_eq_false,
      if_false, if_true] at hmem
    obtain ⟨ts, env, hfound⟩ := processRange_delivered cfg outs _ _ _ _ b hmem
    rw [hb] at hfound
    exact PollBlockOutcome.noConfusion hfound

/-- Claim C3 amended witness: baseline 10, height 12, fetching block 11
throws: the baseline ends at 12 and block 11 is not among the delivered
blocks. -/
theorem pollBaselineAdvancesUnconditionallyWitness :
    (pollBlocksTick cfgB httpStart (some 12) outsFail11).1.lastProcessedBlock
      = 12 ∧
    (11 : ℤ) ∉ (pollBlocksTick cfgB httpStart (some 12) outsFail11).2 :=
  ⟨(pollBaselineAdvancesUnconditionally cfgB httpStart 12 outsFail11
      (by decide) (by decide)).1,
   (pollBaselineAdvancesUnconditionally cfgB httpStart 12 outsFail11
      (by decide) (by decide)).2 11 (by decide)⟩

lemma runBlocksD_skip (cfg : BlockReactionConfig) :
    ∀ (evs : List (DispatchEnv × ℤ × String)) (st : EngineState),
    st.blockCount + evs.length ≤ cfg.initialBlocksToSkip →
    runBlocksD cfg st evs =
      ({ st with blockCount := st.blockCount + evs.length },
       List.replicate evs.length HandleOutcome.skipped) := by
  intro evs
  induction evs with
  | nil => intro st _; simp [runBlocksD]
  | cons ev evs ih =>
    rcases ev with ⟨env, bn, ts⟩
    intro st h
    have hlen : (0 : ℤ) ≤ (evs.length : ℤ) := Int.ofNat_nonneg _
    have h1 : st.blockCount + 1 ≤ cfg.initialBlocksToSkip := by
      simp only [List.length_cons] at h; push_cast at h; omega
    rw [runBlocksD, handleNewBlock]
    simp only [if_pos h1]
    rw [ih { st with blockCount := st.blockCount + 1 }
      (by simp only [List.length_cons] at h; push_cast at h ⊢; omega)]
    simp only [List.length_cons, List.replicate_succ, Prod.mk.injEq,
      EngineState.mk.injEq, and_true, true_and]
    push_cast
    ring

lemma sendTransaction_sent_le (cfg : BlockReactionConfig) (st : EngineState)
    (env : DispatchEnv) (bn : ℤ) (ts : String) :
    (sendTransaction cfg st env bn ts).sentTransactionCount ≤
      st.sentTransactionCount + 1 := by
  unfold sendTransaction
  rcases getCachedGasData cfg.gasPriceGwei st.cachedGasData env.now env.feeData with
    _ | g
  · simp; omega
  · simp only
    rcases getCachedNonce st.cachedNonce env.now env.nonceFetch with _ | n
    · simp; omega
    · simp only
      rcases env.sendResult with _ | h
      · simp
      · simp

lemma monitorEntryStep_fixed (now : ℤ) (lookup : String → ReceiptResult)
    (bf : ℤ → BlockLookupResult) (s : EngineState) (e : String × PendingInfo) :
    (monitorEntryStep now lookup bf s e).sentTransactionCount =
      s.sentTransactionCount ∧
    (monitorEntryStep now lookup bf s e).blockCount = s.blockCount ∧
    (monitorEntryStep now lookup bf s e).cachedGasData = s.cachedGasData ∧
    (monitorEntryStep now lookup bf s e).cachedNonce = s.cachedNonce := by
  unfold monitorEntryStep
  rcases lookup e.1 with _ | _ | r
  · exact ⟨rfl, rfl, rfl, rfl⟩
  · exact ⟨rfl, rfl, rfl, rfl⟩
  · simp only
    rcases bf r.blockNumber with _ | ts
    · exact ⟨rfl, rfl, rfl, rfl⟩
    · exact ⟨rfl, rfl, rfl, rfl⟩

lemma foldl_monitorEntryStep_sent (now : ℤ) (lookup : String → ReceiptResult)
    (bf : ℤ → BlockLookupResult) :
    ∀ (l : List (String × PendingInfo)) (s : EngineState),
    (l.foldl (monitorEntryStep now lookup bf) s).sentTransactionCount =
      s.sentTransactionCount := by
  intro l
  induction l with
  | nil => intro s; rfl
  | cons e l ih =>
    intro s
    rw [List.foldl_cons, ih, (monitorEntryStep_fixed now lookup bf s e).1]

lemma transactionMonitoringTick_sent (st : EngineState) (now : ℤ)
    (lookup : String → ReceiptResult) (bf : ℤ → BlockLookupResult) :
    (transactionMonitoringTick st now lookup bf).sentTransactionCount =
      st.sentTransactionCount := by
  unfold transactionMonitoringTick
  split
  · rfl
  · exact foldl_monitorEntryStep_sent now lookup bf st.pendingTransactions st

lemma gasDataRefreshTick_fixed (cfg : BlockReactionConfig) (st : EngineState)
    (now : ℤ) (ff : Option FeeData) (nf : Option ℤ) :
    (gasDataRefreshTick cfg st now ff nf).1.sentTransactionCount =
      st.sentTransactionCount ∧
    (gasDataRefreshTick cfg st now ff nf).1.blockCount = st.blockCount ∧
    (gasDataRefreshTick cfg st now ff nf).1.pendingTransactions =
      st.pendingTransactions ∧
    (gasDataRefreshTick cfg st now ff nf).1.confirmationMetrics =
      st.confirmationMetrics := by
  unfold gasDataRefreshTick
  rcases getCachedGasData cfg.gasPriceGwei st.cachedGasData now ff with _ | g
  · exact ⟨rfl, rfl, rfl, rfl⟩
  · simp only
    rcases getCachedNonce st.cachedNonce now nf with _ | n
    · exact ⟨rfl, rfl, rfl, rfl⟩
    · exact ⟨rfl, rfl, rfl, rfl⟩

lemma runStep_sent_le (cfg : BlockReactionConfig) (st : EngineState)
    (op : RunOp) (h : st.sentTransactionCount ≤ cfg.transactionCount) :
    (runStep cfg st op).sentTransactionCount ≤ cfg.transactionCount := by
  cases op with
  | block env bn ts =>
    simp only [runStep, handleNewBlock]
    split
    · exact h
    · split
      · rename_i hlt
        show (sendTransaction cfg { st with blockCount := st.blockCount + 1 }
          env bn ts).sentTransactionCount ≤ cfg.transactionCount
        have hle := sendTransaction_sent_le cfg
          { st with blockCount := st.blockCount + 1 } env bn ts
        dsimp only at hle hlt
        omega
      · exact h
  | monitor now lookup bf =>
    simp only [runStep]
    rw [transactionMonitoringTick_sent]
    exact h
  | refresh now ff nf =>
    simp only [runStep]
    rw [(gasDataRefreshTick_fixed cfg st now ff nf).1]
    exact h

lemma run_sent_le (cfg : BlockReactionConfig) :
    ∀ (ops : List RunOp) (st : EngineState),
    st.sentTransactionCount ≤ cfg.transactionCount →
    (run cfg st ops).sentTransactionCount ≤ cfg.transactionCount := by
  intro ops
  induction ops with
  | nil => intro st h; exact h
  | cons op ops ih =>
    intro st h
    exact ih (runStep cfg st op) (runStep_sent_le cfg st op h)

/-- Claim C5: starting from any state within budget, after any serialized
sequence of block, monitor and refresh events transactionsSent never exceeds
transactionBudget; and a dispatch whose parameters were fetched successfully
but whose submission throws leaves transactionsSent exactly at its
pre-attempt value. -/
theorem budgetExactness :
    (∀ (cfg : BlockReactionConfig) (st : EngineState) (ops : List RunOp),
      st.sentTransactionCount ≤ cfg.transactionCount →
      (run cfg st ops).sentTransactionCount ≤ cfg.transactionCount) ∧
    (∀ (cfg : BlockReactionConfig) (st : EngineState) (env : DispatchEnv)
      (bn : ℤ) (ts : String),
      getCachedGasData cfg.gasPriceGwei st.cachedGasData env.now env.feeData
        ≠ none →
      getCachedNonce st.cachedNonce env.now env.nonceFetch ≠ none →
      env.sendResult = none →
      (sendTransaction cfg st env bn ts).sentTransactionCount =
        st.sentTransactionCount) := by
  constructor
  · intro cfg st ops h
    exact run_sent_le cfg ops st h
  · intro cfg st env bn ts hg hn hs
    unfold sendTransaction
    rcases hgd : getCachedGasData cfg.gasPriceGwei st.cachedGasData env.now
      env.feeData with _ | g
    · exact absurd hgd hg
    · simp only
      rcases hnd : getCachedNonce st.cachedNonce env.now env.nonceFetch
        with _ | n
      · exact absurd hnd hn
      · simp only [hs]
        ring

/-- Claim C5 witness: the empty run keeps 0 ≤ 5, and a failed submission
from the warm state leaves the counter at 0. -/
theorem budgetExactnessWitness :
    (run cfgA initialEngineState []).sentTransactionCount ≤
      cfgA.transactionCount ∧
    (sendTransaction cfgA stWarm envSendFail 100 "64").sentTransactionCount =
      stWarm.sentTransactionCount :=
  ⟨budgetExactness.1 cfgA initialEngineState [] (by decide),
   budgetExactness.2 cfgA stWarm envSendFail 100 "64" (by decide) (by decide)
     rfl⟩

/-- Claim C7: with initialBlocksToSkip = k and a positive budget, the first
k block events are all skipped, changing nothing but the block counter (no
parameter fetch, no submission, no pending entry), and the (k+1)-th block
event triggers the first dispatch. -/
theorem skipCorrectness (cfg : BlockReactionConfig) (st0 : EngineState)
    (evs : List (DispatchEnv × ℤ × String)) (env : DispatchEnv) (bn : ℤ)
    (ts : String) (h0 : st0.blockCount = 0)
    (hs : st0.sentTransactionCount = 0) (hb : 0 < cfg.transactionCount)
    (hk : (evs.length : ℤ) = cfg.initialBlocksToSkip) :
    (runBlocksD cfg st0 evs).2 =
      List.replicate evs.length HandleOutcome.skipped ∧
    (runBlocksD cfg st0 evs).1 =
      { st0 with blockCount := cfg.initialBlocksToSkip } ∧
    (handleNewBlock cfg (runBlocksD cfg st0 evs).1 env bn ts).2 =
      HandleOutcome.dispatched := by
  have hle : st0.blockCount + evs.length ≤ cfg.initialBlocksToSkip := by
    rw [h0, hk]; omega
  have hrun := runBlocksD_skip cfg evs st0 hle
  refine ⟨by rw [hrun], ?_, ?_⟩
  · rw [hrun]
    ext <;> simp [h0, hk]
  · rw [hrun]
    unfold handleNewBlock
    have hgt : ¬ (st0.blockCount + evs.length + 1 ≤ cfg.initialBlocksToSkip) := by
      rw [h0, hk]; omega
    simp only [if_neg hgt, hs, if_pos hb]

/-- Claim C7 witness: skip 10, budget 5: ten block events are all skipped and
the eleventh dispatches. -/
theorem skipCorrectnessWitness :
    (runBlocksD cfgB initialEngineState
      (List.replicate 10 (envSendOne, (100 : ℤ), "64"))).2 =
      List.replicate 10 HandleOutcome.skipped ∧
    (handleNewBlock cfgB
      (runBlocksD cfgB initialEngineState
        (List.replicate 10 (envSendOne, (100 : ℤ), "64"))).1
      envSendOne 110 "65").2 = HandleOutcome.dispatched := by
  have h := skipCorrectness cfgB initialEngineState
    (List.replicate 10 (envSendOne, (100 : ℤ), "64")) envSendOne 110 "65"
    rfl rfl (by decide) (by decide)
  exact ⟨h.1, h.2.2⟩

/-- Claim C9: an environment value that does not parse as a number never
causes a configuration error: each numeric variable falls back to its
built-in default (21000, 20, 10, 5), the all-unparsable configuration
validates cleanly, and loading throws only when a successfully parsed value
violates its range check (gas limit ≤ 0, fee-rate default ≤ 0, skip < 0,
budget outside 1 to 10, stated for integer budgets; the source check is
budget ≤ 0 or budget > 10). -/
theorem configNumericFallback :
    (∀ gl gp sk tc : EnvNum,
      (gl = EnvNum.invalid →
        (loadNumericConfig gl gp sk tc).1.gasLimit = 21000) ∧
      (gp = EnvNum.invalid →
        (loadNumericConfig gl gp sk tc).1.gasPriceGwei = 20) ∧
      (sk = EnvNum.invalid →
        (loadNumericConfig gl gp sk tc).1.initialBlocksToSkip = 10) ∧
      (tc = EnvNum.invalid →
        (loadNumericConfig gl gp sk tc).1.transactionCount = 5)) ∧
    (loadNumericConfig EnvNum.invalid EnvNum.invalid EnvNum.invalid
      EnvNum.invalid).2 = none ∧
    (∀ gl gp sk tc : EnvNum,
      (loadNumericConfig gl gp sk tc).2 ≠ none →
      (∃ q, gl = EnvNum.val q ∧ q ≤ 0) ∨
      (∃ q, gp = EnvNum.val q ∧ q ≤ 0) ∨
      (∃ q, sk = EnvNum.val q ∧ q < 0) ∨
      (∃ q, tc = EnvNum.val q ∧ (q ≤ 0 ∨ 10 < q))) ∧
    (∀ q : ℚ, (loadNumericConfig (EnvNum.val q) EnvNum.missing EnvNum.missing
      EnvNum.missing).2 ≠ none ↔ q ≤ 0) ∧
    (∀ q : ℚ, (loadNumericConfig EnvNum.missing (EnvNum.val q) EnvNum.missing
      EnvNum.missing).2 ≠ none ↔ q ≤ 0) ∧
    (∀ q : ℚ, (loadNumericConfig EnvNum.missing EnvNum.missing (EnvNum.val q)
      EnvNum.missing).2 ≠ none ↔ q < 0) ∧
    (∀ q : ℚ, (loadNumericConfig EnvNum.missing EnvNum.missing EnvNum.missing
      (EnvNum.val q)).2 ≠ none ↔ (q ≤ 0 ∨ 10 < q)) ∧
    (∀ n : ℤ, (loadNumericConfig EnvNum.missing EnvNum.missing EnvNum.missing
      (EnvNum.val (n : ℚ))).2 ≠ none ↔ (n < 1 ∨ 10 < n)) := by
  refine ⟨?_, by decide, ?_, ?_, ?_, ?_, ?_, ?_⟩
  · intro gl gp sk tc
    refine ⟨?_, ?_, ?_, ?_⟩ <;> intro h <;> subst h <;>
      simp [loadNumericConfig, getEnvVarAsNumber]
  · intro gl gp sk tc h
    unfold loadNumericConfig validateNumericConfig at h
    dsimp only at h
    split_ifs at h with h1 h2 h3 h4
    · rcases gl with _ | _ | q
      · norm_num [getEnvVarAsNumber] at h1
      · norm_num [getEnvVarAsNumber] at h1
      · exact Or.inl ⟨q, rfl, h1⟩
    · rcases gp with _ | _ | q
      · norm_num [getEnvVarAsNumber] at h2
      · norm_num [getEnvVarAsNumber] at h2
      · exact Or.inr (Or.inl ⟨q, rfl, h2⟩)
    · rcases sk with _ | _ | q
      · norm_num [getEnvVarAsNumber] at h3
      · norm_num [getEnvVarAsNumber] at h3
      · exact Or.inr (Or.inr (Or.inl ⟨q, rfl, h3⟩))
    · rcases tc with _ | _ | q
      · norm_num [getEnvVarAsNumber] at h4
      · norm_num [getEnvVarAsNumber] at h4
      · exact Or.inr (Or.inr (Or.inr ⟨q, rfl, h4⟩))
    · exact absurd rfl h
  · intro q
    unfold loadNumericConfig validateNumericConfig getEnvVarAsNumber
    dsimp only
    split_ifs with h1 h2 h3 h4
    · simp [h1]
    · exact absurd h2 (by norm_num)
    · exact absurd h3 (by norm_num)
    · exact absurd h4 (by norm_num)
    · simp [h1]
  · intro q
    unfold loadNumericConfig validateNumericConfig getEnvVarAsNumber
    dsimp only
    split_ifs with h1 h2 h3 h4
    · exact absurd h1 (by norm_num)
    · simp [h2]
    · exact absurd h3 (by norm_num)
    · exact absurd h4 (by norm_num)
    · simp [h2]
  · intro q
    unfold loadNumericConfig validateNumericConfig getEnvVarAsNumber
    dsimp only
    split_ifs with h1 h2 h3 h4
    · exact absurd h1 (by norm_num)
    · exact absurd h2 (by norm_num)
    · simp [h3]
    · exact absurd h4 (by norm_num)
    · simp [h3]
  · intro q
    unfold loadNumericConfig validateNumericConfig getEnvVarAsNumber
    dsimp only
    split_ifs with h1 h2 h3 h4
    · exact absurd h1 (by norm_num)
    · exact absurd h2 (by norm_num)
    · exact absurd h3 (by norm_num)
    · simp [h4]
    · simp [h4]
  · intro n
    unfold loadNumericConfig validateNumericConfig getEnvVarAsNumber
    dsimp only
    split_ifs with h1 h2 h3 h4
    · exact absurd h1 (by norm_num)
    · exact absurd h2 (by norm_num)
    · exact absurd h3 (by norm_num)
    · have h4i : n ≤ 0 ∨ 10 < n := by
        rcases h4 with hx | hx
        · exact Or.inl (by exact_mod_cast hx)
        · exact Or.inr (by exact_mod_cast hx)
      simp only [ne_eq, reduceCtorEq, not_false_eq_true, true_iff]
      omega
    · have h4i : ¬(n ≤ 0 ∨ 10 < n) := by
        intro hx
        apply h4
        rcases hx with hx | hx
        · exact Or.inl (by exact_mod_cast hx)
        · exact Or.inr (by exact_mod_cast hx)
      simp only [ne_eq, not_true_eq_false, false_iff]
      omega

/-- Claim C9 witness: an unparsable GAS_LIMIT yields the 21000 default; a
budget parsed as 11 makes loading throw, and that throw names the parsed
violating value. -/
theorem configNumericFallbackWitness :
    (loadNumericConfig EnvNum.invalid EnvNum.missing EnvNum.missing
      EnvNum.missing).1.gasLimit = 21000 ∧
    (loadNumericConfig EnvNum.missing EnvNum.missing EnvNum.missing
      (EnvNum.val 11)).2 ≠ none ∧
    ((∃ q, EnvNum.missing = EnvNum.val q ∧ q ≤ 0) ∨
     (∃ q, EnvNum.missing = EnvNum.val q ∧ q ≤ 0) ∨
     (∃ q, EnvNum.missing = EnvNum.val q ∧ q < 0) ∨
     (∃ q, EnvNum.val (11 : ℚ) = EnvNum.val q ∧ (q ≤ 0 ∨ 10 < q))) :=
  ⟨(configNumericFallback.1 EnvNum.invalid EnvNum.missing EnvNum.missing
      EnvNum.missing).1 rfl,
   (configNumericFallback.2.2.2.2.2.2.1 11).mpr (by norm_num),
   configNumericFallback.2.2.1 EnvNum.missing EnvNum.missing EnvNum.missing
     (EnvNum.val 11) (by decide)⟩

lemma mapSet_keys (m : List (String × PendingInfo)) (k : String)
    (v : PendingInfo) :
    (mapSet m k v).map Prod.fst =
      if m.any (fun p => p.1 = k) then m.map Prod.fst
      else m.map Prod.fst ++ [k] := by
  unfold mapSet
  split
  · rw [List.map_map]
    refine List.map_congr_left ?_
    intro p _
    by_cases hpk : p.1 = k
    · simp [hpk]
    · simp [hpk]
  · simp

lemma any_key_iff_mem (m : List (String × PendingInfo)) (k : String) :
    m.any (fun p => p.1 = k) = true ↔ k ∈ m.map Prod.fst := by
  simp only [List.any_eq_true, List.mem_map, decide_eq_true_eq]

lemma mapSet_keys_nodup (m : List (String × PendingInfo)) (k : String)
    (v : PendingInfo) (h : (m.map Prod.fst).Nodup) :
    ((mapSet m k v).map Prod.fst).Nodup := by
  rw [mapSet_keys]
  split
  · exact h
  · rename_i hmem
    have hk : k ∉ m.map Prod.fst := by
      rw [← any_key_iff_mem]
      simpa using hmem
    simp [List.nodup_append, h, hk]

lemma mapSet_keys_subset (m : List (String × PendingInfo)) (k x : String)
    (v : PendingInfo) (hx : x ∈ (mapSet m k v).map Prod.fst) :
    x ∈ m.map Prod.fst ∨ x = k := by
  rw [mapSet_keys] at hx
  split at hx
  · exact Or.inl hx
  · rcases List.mem_append.mp hx with h | h
    · exact Or.inl h
    · exact Or.inr (List.mem_singleton.mp h)

lemma mapDelete_keys_sublist (m : List (String × PendingInfo)) (k : String) :
    List.Sublist ((mapDelete m k).map Prod.fst) (m.map Prod.fst) :=
  (List.filter_sublist m).map Prod.fst

lemma mapDelete_keys_mem (m : List (String × PendingInfo)) (k x : String)
    (hx : x ∈ (mapDelete m k).map Prod.fst) :
    x ∈ m.map Prod.fst ∧ x ≠ k := by
  rcases List.mem_map.mp hx with ⟨p, hp, hpx⟩
  rcases List.mem_filter.mp hp with ⟨hpm, hpk⟩
  subst hpx
  refine ⟨List.mem_map_of_mem Prod.fst hpm, ?_⟩
  simpa using hpk

lemma mapDelete_mem (m : List (String × PendingInfo)) (k : String)
    (e : String × PendingInfo) (he : e ∈ m) (hk : e.1 ≠ k) :
    e ∈ mapDelete m k := by
  refine List.mem_filter.mpr ⟨he, ?_⟩
  simpa using hk

lemma confirmationInv_congr {st stb : EngineState}
    (hp : stb.pendingTransactions = st.pendingTransactions)
    (hm : stb.confirmationMetrics = st.confirmationMetrics)
    (h : ConfirmationInv st) : ConfirmationInv stb := by
  unfold ConfirmationInv metricsHashes pendingHashes at h ⊢
  rw [hp, hm]
  exact h

lemma sendTransaction_inv (cfg : BlockReactionConfig) (st : EngineState)
    (env : DispatchEnv) (bn : ℤ) (ts : String) (hInv : ConfirmationInv st)
    (hOK : ∀ h : String, env.sendResult = some h → h ∉ metricsHashes st) :
    ConfirmationInv (sendTransaction cfg st env bn ts) := by
  unfold sendTransaction
  rcases getCachedGasData cfg.gasPriceGwei st.cachedGasData env.now env.feeData
    with _ | g
  · exact confirmationInv_congr rfl rfl hInv
  · simp only
    rcases getCachedNonce st.cachedNonce env.now env.nonceFetch with _ | n
    · exact confirmationInv_congr rfl rfl hInv
    · simp only
      rcases hsr : env.sendResult with _ | h
      · exact confirmationInv_congr rfl rfl hInv
      · have hnotm : h ∉ metricsHashes st := hOK h hsr
        refine ⟨hInv.1, ?_, ?_, hInv.2.2.2⟩
        · exact mapSet_keys_nodup _ h _ hInv.2.1
        · intro x hx
          rcases mapSet_keys_subset _ h x _ hx with hx' | rfl
          · exact hInv.2.2.1 x hx'
          · exact hnotm

lemma monitorFold_inv (now : ℤ) (lookup : String → ReceiptResult)
    (bf : ℤ → BlockLookupResult) :
    ∀ (l : List (String × PendingInfo)) (s : EngineState),
    ConfirmationInv s →
    (l.map Prod.fst).Nodup →
    (∀ e ∈ l, e ∈ s.pendingTransactions) →
    (∀ e ∈ l, ∀ r : Receipt, lookup e.1 = ReceiptResult.found r →
      e.2.sentBlock ≤ r.blockNumber) →
    ConfirmationInv (l.foldl (monitorEntryStep now lookup bf) s) := by
  intro l
  induction l with
  | nil => intro s hInv _ _ _; exact hInv
  | cons e l ih =>
    intro s hInv hnd hmem hgood
    rw [List.foldl_cons]
    simp only [List.map_cons, List.nodup_cons] at hnd
    have hmem' : ∀ x ∈ l, x ∈ s.pendingTransactions :=
      fun x hx => hmem x (List.mem_cons_of_mem e hx)
    have hgood' : ∀ x ∈ l, ∀ r : Receipt,
        lookup x.1 = ReceiptResult.found r → x.2.sentBlock ≤ r.blockNumber :=
      fun x hx => hgood x (List.mem_cons_of_mem e hx)
    rcases hl : lookup e.1 with _ | _ | r
    · have hstep : monitorEntryStep now lookup bf s e = s := by
        simp [monitorEntryStep, hl]
      rw [hstep]
      exact ih s hInv hnd.2 hmem' hgood'
    · have hstep : monitorEntryStep now lookup bf s e = s := by
        simp [monitorEntryStep, hl]
      rw [hstep]
      exact ih s hInv hnd.2 hmem' hgood'
    · rcases hb : bf r.blockNumber with _ | bts
      · have hstep : monitorEntryStep now lookup bf s e = s := by
          simp [monitorEntryStep, hl, hb]
        rw [hstep]
        exact ih s hInv hnd.2 hmem' hgood'
      · have heS : e ∈ s.pendingTransactions := hmem e (List.mem_cons_self e l)
        have hekey : e.1 ∈ pendingHashes s :=
          List.mem_map_of_mem Prod.fst heS
        have hem : e.1 ∉ metricsHashes s := hInv.2.2.1 e.1 hekey
        have hstep : monitorEntryStep now lookup bf s e =
            { s with
              confirmationMetrics := s.confirmationMetrics ++
                [processConfirmedTransaction e.1 r e.2 now bts],
              pendingTransactions := mapDelete s.pendingTransactions e.1 } := by
          simp [monitorEntryStep, hl, hb]
        rw [hstep]
        have hInv' : ConfirmationInv
            { s with
              confirmationMetrics := s.confirmationMetrics ++
                [processConfirmedTransaction e.1 r e.2 now bts],
              pendingTransactions := mapDelete s.pendingTransactions e.1 } := by
          have hmh : metricsHashes
              { s with
                confirmationMetrics := s.confirmationMetrics ++
                  [processConfirmedTransaction e.1 r e.2 now bts],
                pendingTransactions :=
                  mapDelete s.pendingTransactions e.1 } =
              metricsHashes s ++ [e.1] := by
            unfold metricsHashes
            simp [processConfirmedTransaction]
          refine ⟨?_, ?_, ?_, ?_⟩
          · rw [hmh, List.nodup_append]
            refine ⟨hInv.1, List.nodup_singleton _, ?_⟩
            intro x hx hx1
            rw [List.mem_singleton.mp hx1] at hx
            exact hem hx
          · exact List.Nodup.sublist (mapDelete_keys_sublist _ _) hInv.2.1
          · intro x hx
            have hx' := mapDelete_keys_mem s.pendingTransactions e.1 x hx
            rw [hmh]
            intro hxm
            rcases List.mem_append.mp hxm with hxo | hxe
            · exact hInv.2.2.1 x hx'.1 hxo
            · exact hx'.2 (List.mem_singleton.mp hxe)
          · intro m hm
            rcases List.mem_append.mp hm with hmo | hmn
            · exact hInv.2.2.2 m hmo
            · have hme : m = processConfirmedTransaction e.1 r e.2 now bts :=
                List.mem_singleton.mp hmn
              subst hme
              refine ⟨rfl, ?_⟩
              have := hgood e (List.mem_cons_self e l) r hl
              simp only [processConfirmedTransaction]
              omega
        refine ih _ hInv' hnd.2 ?_ hgood'
        intro x hx
        have hxk : x.1 ≠ e.1 := by
          intro hc
          exact hnd.1 (hc ▸ List.mem_map_of_mem Prod.fst hx)
        exact mapDelete_mem s.pendingTransactions e.1 x (hmem' x hx) hxk

lemma transactionMonitoringTick_inv (st : EngineState) (now : ℤ)
    (lookup : String → ReceiptResult) (bf : ℤ → BlockLookupResult)
    (hInv : ConfirmationInv st) (hg : goodMonitor st lookup) :
    ConfirmationInv (transactionMonitoringTick st now lookup bf) := by
  unfold transactionMonitoringTick
  split
  · exact hInv
  · exact monitorFold_inv now lookup bf st.pendingTransactions st hInv
      hInv.2.1 (fun e he => he) hg

lemma runStep_inv (cfg : BlockReactionConfig) (st : EngineState) (op : RunOp)
    (hInv : ConfirmationInv st) (hOK : opOK st op) :
    ConfirmationInv (runStep cfg st op) := by
  cases op with
  | block env bn ts =>
    simp only [runStep, handleNewBlock]
    split
    · exact confirmationInv_congr rfl rfl hInv
    · split
      · refine sendTransaction_inv cfg _ env bn ts
          (confirmationInv_congr rfl rfl hInv) ?_
        intro h hh
        exact hOK h hh
      · exact confirmationInv_congr rfl rfl hInv
  | monitor now lookup bf =>
    exact transactionMonitoringTick_inv st now lookup bf hInv hOK
  | refresh now ff nf =>
    exact confirmationInv_congr (gasDataRefreshTick_fixed cfg st now ff nf).2.2.1
      (gasDataRefreshTick_fixed cfg st now ff nf).2.2.2 hInv

lemma okRun_inv (cfg : BlockReactionConfig) :
    ∀ (st : EngineState) (ops : List RunOp) (stf : EngineState),
    OkRun cfg st ops stf → ConfirmationInv st → ConfirmationInv stf := by
  intro st ops stf hrun
  induction hrun with
  | nil st => exact fun h => h
  | cons st op ops stf hok _ ih =>
    intro hInv
    exact ih (runStep_inv cfg st op hInv hok)

/-- Claim C8: over any whole run with a well-behaved chain client (distinct
transaction hashes, receipts on an append-only chain), each transaction hash
produces at most one ConfirmationMetrics entry, and every recorded entry
satisfies blocksToConfirm = confirmedBlockNumber - sentBlockNumber with
blocksToConfirm non-negative. -/
theorem confirmationIdempotence (cfg : BlockReactionConfig) (ops : List RunOp)
    (stf : EngineState) (hrun : OkRun cfg initialEngineState ops stf) :
    (metricsHashes stf).Nodup ∧
    ∀ m ∈ stf.confirmationMetrics,
      m.blocksToConfirm = m.confirmedBlockNumber - m.sentBlockNumber ∧
      0 ≤ m.blocksToConfirm := by
  have h0 : ConfirmationInv initialEngineState := by
    refine ⟨List.nodup_nil, List.nodup_nil, ?_, ?_⟩ <;>
      simp [metricsHashes, pendingHashes, initialEngineState]
  have h := okRun_inv cfg initialEngineState ops stf hrun h0
  exact ⟨h.1, h.2.2.2⟩

/-- Claim C8 witness: the two-event run (dispatch from block 100, receipt
found at block 102) yields distinct metrics hashes and a correct,
non-negative blocksToConfirm. -/
theorem confirmationIdempotenceWitness :
    (metricsHashes (run cfgA initialEngineState opsC8)).Nodup ∧
    ∀ m ∈ (run cfgA initialEngineState opsC8).confirmationMetrics,
      m.blocksToConfirm = m.confirmedBlockNumber - m.sentBlockNumber ∧
      0 ≤ m.blocksToConfirm := by
  apply confirmationIdempotence cfgA opsC8
  refine OkRun.cons _ _ _ _ ?_ (OkRun.cons _ _ _ _ ?_ (OkRun.nil _))
  · intro h hh
    simp [metricsHashes, initialEngineState]
  · intro e he r hr
    have hp : (runStep cfgA initialEngineState
        (RunOp.block envColdSend 100 "64")).pendingTransactions =
        [("0xc1", { sentBlock := 100, startTime := 0,
                    sentBlockTimestamp := "64", sentTimestamp := 0 })] := by
      decide
    rw [hp] at he
    rcases List.mem_singleton.mp he with rfl
    have hlk : lookupC8 "0xc1" = ReceiptResult.found
        { blockNumber := 102, gasUsed := 21000,
          gasPrice := some 20000000000 } := by decide
    rw [hlk] at hr
    cases hr
    decide

end BlockReaction
